import Mathlib

/-!
Shallow embedding of the mython interpreter (lexer, runtime object model,
AST evaluator) and proofs about it.  Definitions mirror the C++ sources:
`runtime.h` / `runtime.cpp` (object model, comparison protocol),
`statement.h` / `statement.cpp` (AST node `Execute` methods, namespace `ast`),
`lexer.h` / `lexer.cpp` (indentation-sensitive lexer, namespace `parse`).
-/

namespace Mython

/-- Comparator selector used by `ast::Comparison` (the C++ node stores a
`std::function` bound to one of the six `runtime` comparison functions). -/
inductive Comparator where
  | eq | notEq | less | greater | lessOrEq | greaterOrEq
deriving DecidableEq

mutual

/-- AST statements (`ast::Statement` subclasses from `statement.h`).  The
nodes `Add`, `Mult`, `Stringify` and `ClassDefinition` are not embedded
(no claim touches them); everything else follows the source. -/
inductive Stmt where
  | numericConst (v : Int)
  | stringConst (v : String)
  | boolConst (v : Bool)
  | noneConst
  | variableValue (dotted_ids : List String)
  | assignment (var : String) (rv : Stmt)
  | fieldAssignment (object : List String) (field_name : String) (rv : Stmt)
  | print (args : List Stmt)
  | methodCall (object : Stmt) (method : String) (args : List Stmt)
  | newInstance (cls : Class) (args : List Stmt)
  | sub (lhs rhs : Stmt)
  | div (lhs rhs : Stmt)
  | orOp (lhs rhs : Stmt)
  | andOp (lhs rhs : Stmt)
  | notOp (argument : Stmt)
  | comparison (cmp : Comparator) (lhs rhs : Stmt)
  | compound (args : List Stmt)
  | methodBody (body : Stmt)
  | returnStmt (statement : Stmt)
  | ifElse (condition if_body : Stmt) (else_body : Option Stmt)

/-- `runtime::Class`: name, own methods, optional parent.  The C++
constructor stores `parent_ = this` as a sentinel for "no parent" and
`GetMethod` tests `parent_ != this`; we model that sentinel as `none`. -/
inductive Class where
  | mk (name : String) (methods : List Method) (parent : Option Class)

/-- `runtime::Method`: name, formal parameter names, body. -/
inductive Method where
  | mk (mname : String) (formal_params : List String) (body : Stmt)

end

def Method.mname : Method → String
  | .mk n _ _ => n

def Method.formal_params : Method → List String
  | .mk _ ps _ => ps

def Method.body : Method → Stmt
  | .mk _ _ b => b

def Class.name : Class → String
  | .mk n _ _ => n

def Class.methods : Class → List Method
  | .mk _ ms _ => ms

def Class.parent : Class → Option Class
  | .mk _ _ p => p

/-- A runtime value as seen through a `runtime::ObjectHolder`.  The empty
holder (denoting `None`) is `vnone`; `Number`, `String` and `Bool` objects
are immutable so they are carried by value; a `ClassInstance` is mutable
and shared, so a holder to one is an address into the instance heap. -/
inductive Value where
  | vnone
  | number (v : Int)
  | str (v : String)
  | bool (v : Bool)
  | classObj (c : Class)
  | inst (addr : Nat)

/-- Symbol table (`runtime::Closure`, an `unordered_map<string, ObjectHolder>`):
association list with unique keys; `upsert` inserts or overwrites. -/
abbrev Closure := List (String × Value)

/-- A heap-resident `runtime::ClassInstance`: its class and its fields. -/
structure InstObj where
  cls : Class
  fields : Closure

/-- Evaluator-visible state: the instance heap and the context's output
stream (`Context::GetOutputStream`), modelled as the string written so far. -/
structure St where
  heap : List InstObj
  output : String

/-- Outcome of running a piece of interpreter code.  `thrownHolder` is the
`throw ObjectHolder` used by `ast::Return`; `fault` is `std::runtime_error`;
`ub` marks undefined behaviour in the C++ (null-pointer dereference,
division by zero); `nofuel` means the step budget ran out. -/
inductive Res (α : Type) where
  | ok (v : α)
  | thrownHolder (v : Value)
  | fault (msg : String)
  | ub
  | nofuel

def lookupC (cl : Closure) (k : String) : Option Value :=
  match cl with
  | [] => none
  | (k2, v) :: rest => if k2 = k then some v else lookupC rest k

def upsert (cl : Closure) (k : String) (v : Value) : Closure :=
  match cl with
  | [] => [(k, v)]
  | (k2, w) :: rest => if k2 = k then (k2, v) :: rest else (k2, w) :: upsert rest k v

/-- `ObjectHolder::TryAs<runtime::Number>` (a `dynamic_cast`; `nullptr` on
the empty holder or a different variant). -/
def tryAsNumber : Value → Option Int
  | .number v => some v
  | _ => none

def tryAsString : Value → Option String
  | .str v => some v
  | _ => none

def tryAsBool : Value → Option Bool
  | .bool v => some v
  | _ => none

def tryAsInstance : Value → Option Nat
  | .inst a => some a
  | _ => none

/-- `ObjectHolder::operator bool()`: true iff the holder is not empty. -/
def holderBool : Value → Bool
  | .vnone => false
  | _ => true

/-- `runtime::IsTrue`. -/
def IsTrue : Value → Bool
  | .number v => v ≠ 0
  | .str v => v ≠ ""
  | .bool v => v
  | _ => false

def findMethod : List Method → String → Option Method
  | [], _ => none
  | m :: rest, name => if m.mname = name then some m else findMethod rest name

/-- `runtime::Class::GetMethod` (runtime.cpp): linear search of the own
method table, then recursion into the parent when one exists. -/
def Class.GetMethod : Class → String → Option Method
  | .mk _ methods none, name => findMethod methods name
  | .mk _ methods (some p), name =>
    match findMethod methods name with
    | some m => some m
    | none => Class.GetMethod p name

/-- `runtime::ClassInstance::HasMethod`: the method exists and its formal
parameter count equals `argument_count`. -/
def HasMethod (cls : Class) (method : String) (argument_count : Nat) : Bool :=
  match cls.GetMethod method with
  | some m => m.formal_params.length = argument_count
  | none => false

def heapGet (st : St) (a : Nat) : Option InstObj :=
  st.heap[a]?

def appendOut (st : St) (s : String) : St :=
  { st with output := st.output ++ s }

/-- Sequencing for state-threading results (C++ exceptions do not roll the
already-performed output/heap/closure mutations back, so the state travels
with every outcome). -/
def bindR {α β : Type} : Res α × St → (α → St → Res β × St) → Res β × St
  | (.ok v, st), f => f v st
  | (.thrownHolder v, st), _ => (.thrownHolder v, st)
  | (.fault m, st), _ => (.fault m, st)
  | (.ub, st), _ => (.ub, st)
  | (.nofuel, st), _ => (.nofuel, st)

/-- Sequencing for results that also thread the caller's closure. -/
def bindE {α β : Type} : Res α × Closure × St → (α → Closure → St → Res β × Closure × St) →
    Res β × Closure × St
  | (.ok v, cl, st), f => f v cl st
  | (.thrownHolder v, cl, st), _ => (.thrownHolder v, cl, st)
  | (.fault m, cl, st), _ => (.fault m, cl, st)
  | (.ub, cl, st), _ => (.ub, cl, st)
  | (.nofuel, cl, st), _ => (.nofuel, cl, st)

/-- One level of the interpreter: the mutually recursive C++ functions,
tied together through a record so that the recursion is structural in the
fuel (`Interp`). -/
structure Fns where
  exec : Stmt → Closure → St → Res Value × Closure × St
  call : Nat → String → List Value → St → Res Value × St
  equal : Value → Value → St → Res Bool × St
  less : Value → Value → St → Res Bool × St
  notEqual : Value → Value → St → Res Bool × St
  greater : Value → Value → St → Res Bool × St
  lessOrEqual : Value → Value → St → Res Bool × St
  greaterOrEqual : Value → Value → St → Res Bool × St
  printValue : Value → St → Res Unit × St

/-- The interpreter with an exhausted step budget. -/
def noFns : Fns where
  exec := fun _ cl st => (.nofuel, cl, st)
  call := fun _ _ _ st => (.nofuel, st)
  equal := fun _ _ st => (.nofuel, st)
  less := fun _ _ st => (.nofuel, st)
  notEqual := fun _ _ st => (.nofuel, st)
  greater := fun _ _ st => (.nofuel, st)
  lessOrEqual := fun _ _ st => (.nofuel, st)
  greaterOrEqual := fun _ _ st => (.nofuel, st)
  printValue := fun _ st => (.nofuel, st)

/-- Left-to-right evaluation of an argument vector (the `for` loops in
`ast::MethodCall::Execute` and `ast::NewInstance::Execute`). -/
def execArgsF (ex : Stmt → Closure → St → Res Value × Closure × St) :
    List Stmt → Closure → St → Res (List Value) × Closure × St
  | [], cl, st => (.ok [], cl, st)
  | a :: rest, cl, st =>
    bindE (ex a cl st) fun v cl1 st1 =>
    bindE (execArgsF ex rest cl1 st1) fun vs cl2 st2 =>
    (.ok (v :: vs), cl2, st2)

/-- The loop body of `ast::Print::Execute`: separator, evaluate, print the
holder (the word `None` for an empty holder); afterwards a final `\n`;
the result is the last evaluated holder (empty when there is none). -/
def printLoopF (ex : Stmt → Closure → St → Res Value × Closure × St)
    (pv : Value → St → Res Unit × St) :
    List Stmt → Bool → Value → Closure → St → Res Value × Closure × St
  | [], _, last, cl, st => (.ok last, cl, appendOut st "\n")
  | a :: rest, first, _, cl, st =>
    let st0 := if first then st else appendOut st " "
    bindE (ex a cl st0) fun v cl1 st1 =>
    if holderBool v then
      match pv v st1 with
      | (.ok _, st2) => printLoopF ex pv rest false v cl1 st2
      | (.thrownHolder w, st2) => (.thrownHolder w, cl1, st2)
      | (.fault m, st2) => (.fault m, cl1, st2)
      | (.ub, st2) => (.ub, cl1, st2)
      | (.nofuel, st2) => (.nofuel, cl1, st2)
    else printLoopF ex pv rest false v cl1 (appendOut st1 "None")

/-- The lookup loop of `ast::VariableValue::Execute`: the current table
starts at the closure; a found `ClassInstance` value redirects the table to
that instance's fields, any other found value leaves the table unchanged;
a missing name throws `runtime_error`.  The returned holder is the one the
iterator points at after the loop, i.e. the last name's value.  (The C++
also moves the table pointer on the final iteration, but that move is dead,
and `Fields()` on the live referent cannot fail, so we redirect only when a
further name follows.)  An empty id list dereferences `closure.begin()`
without a lookup — undefined; the node constructors guarantee at least one
id. -/
def varValueLoop (st : St) : List String → Closure → Res Value
  | [], _ => .ub
  | [id], tbl =>
    match lookupC tbl id with
    | none => .fault "runtime_error VariableValue::Execute()"
    | some v => .ok v
  | id :: rest, tbl =>
    match lookupC tbl id with
    | none => .fault "runtime_error VariableValue::Execute()"
    | some v =>
      match tryAsInstance v with
      | some a =>
        match heapGet st a with
        | some io => varValueLoop st rest io.fields
        | none => .ub
      | none => varValueLoop st rest tbl

/-- `args["self"] = Share(*this); args[params[i]] = actual_args[i]`. -/
def bindParams (formals : List String) (actuals : List Value) (acc : Closure) : Closure :=
  match formals, actuals with
  | f :: fs, a :: rest => bindParams fs rest (upsert acc f a)
  | _, _ => acc

/-- `runtime::ClassInstance::Call` (runtime.cpp). -/
def callF (fns : Fns) (addr : Nat) (method : String) (actual_args : List Value)
    (st : St) : Res Value × St :=
  match heapGet st addr with
  | none => (.ub, st)
  | some io =>
    if HasMethod io.cls method actual_args.length then
      match io.cls.GetMethod method with
      | none => (.ub, st)  -- unreachable: `HasMethod` just found the method
      | some m =>
        let frame := bindParams m.formal_params actual_args [("self", Value.inst addr)]
        match fns.exec m.body frame st with
        | (r, _, st1) => (r, st1)
    else (.fault "Not implemented", st)

/-- `runtime::Equal` (runtime.cpp): numbers, strings, bools by value; two
empty holders are equal; an instance with `__eq__/1` dispatches (the result
is narrowed with `TryAs<Bool>` and dereferenced — undefined behaviour when
`__eq__` returned something else); anything else throws. -/
def equalF (fns : Fns) (lhs rhs : Value) (st : St) : Res Bool × St :=
  match tryAsNumber lhs, tryAsNumber rhs with
  | some a, some b => (.ok (decide (a = b)), st)
  | _, _ =>
  match tryAsString lhs, tryAsString rhs with
  | some a, some b => (.ok (decide (a = b)), st)
  | _, _ =>
  match tryAsBool lhs, tryAsBool rhs with
  | some a, some b => (.ok (a == b), st)
  | _, _ =>
  if !holderBool lhs && !holderBool rhs then (.ok true, st)
  else
    match tryAsInstance lhs with
    | some a =>
      match heapGet st a with
      | none => (.ub, st)
      | some io =>
        if HasMethod io.cls "__eq__" 1 then
          bindR (fns.call a "__eq__" [rhs] st) fun v st1 =>
            match tryAsBool v with
            | some b => (.ok b, st1)
            | none => (.ub, st1)
        else (.fault "Cannot compare objects for equality", st)
    | none => (.fault "Cannot compare objects for equality", st)

/-- `runtime::Less` (runtime.cpp): numbers, strings (lexicographic), bools
(`false < true`); an instance with `__lt__/1` dispatches; no `None` case;
anything else throws (with the same message as `Equal`, as in the source). -/
def lessF (fns : Fns) (lhs rhs : Value) (st : St) : Res Bool × St :=
  match tryAsNumber lhs, tryAsNumber rhs with
  | some a, some b => (.ok (decide (a < b)), st)
  | _, _ =>
  match tryAsString lhs, tryAsString rhs with
  | some a, some b => (.ok (decide (a < b)), st)
  | _, _ =>
  match tryAsBool lhs, tryAsBool rhs with
  | some a, some b => (.ok (!a && b), st)
  | _, _ =>
  match tryAsInstance lhs with
  | some a =>
    match heapGet st a with
    | none => (.ub, st)
    | some io =>
      if HasMethod io.cls "__lt__" 1 then
        bindR (fns.call a "__lt__" [rhs] st) fun v st1 =>
          match tryAsBool v with
          | some b => (.ok b, st1)
          | none => (.ub, st1)
      else (.fault "Cannot compare objects for equality", st)
  | none => (.fault "Cannot compare objects for equality", st)

/-- `runtime::NotEqual`: `!Equal(lhs, rhs, context)`. -/
def notEqualF (fns : Fns) (lhs rhs : Value) (st : St) : Res Bool × St :=
  bindR (fns.equal lhs rhs st) fun b st1 => (.ok (!b), st1)

/-- `runtime::Greater`: `!Less(lhs, rhs, context) && !Equal(lhs, rhs, context)`;
the C++ `&&` short-circuits, so `Equal` does not run when `Less` was true. -/
def greaterF (fns : Fns) (lhs rhs : Value) (st : St) : Res Bool × St :=
  bindR (fns.less lhs rhs st) fun l st1 =>
    if !l then
      bindR (fns.equal lhs rhs st1) fun e st2 => (.ok (!e), st2)
    else (.ok false, st1)

/-- `runtime::LessOrEqual`: `!Greater(lhs, rhs, context)`. -/
def lessOrEqualF (fns : Fns) (lhs rhs : Value) (st : St) : Res Bool × St :=
  bindR (fns.greater lhs rhs st) fun b st1 => (.ok (!b), st1)

/-- `runtime::GreaterOrEqual`: `!Less(lhs, rhs, context)`. -/
def greaterOrEqualF (fns : Fns) (lhs rhs : Value) (st : St) : Res Bool × St :=
  bindR (fns.less lhs rhs st) fun b st1 => (.ok (!b), st1)

def applyCmpF (fns : Fns) : Comparator → Value → Value → St → Res Bool × St
  | .eq => fns.equal
  | .notEq => fns.notEqual
  | .less => fns.less
  | .greater => fns.greater
  | .lessOrEq => fns.lessOrEqual
  | .greaterOrEq => fns.greaterOrEqual

/-- Rendering of the address-like token `os << this` produces for an
instance without `__str__` (implementation-defined in C++; we render the
heap index). -/
def instAddrRepr (addr : Nat) : String :=
  "0x" ++ toString addr

/-- `Object::Print` dispatch: `ValueObject<int>::Print`, `ValueObject<string>::Print`,
`Bool::Print`, `Class::Print` and `ClassInstance::Print` from runtime.cpp.
`Class::Print` goes through `GetName`, which throws `runtime_error` when the
name is empty.  `ClassInstance::Print` dispatches `__str__/0` and prints the
result through `Get()->Print` (null dereference when `__str__` returned an
empty holder); otherwise it prints the address token.  Printing an empty
holder itself never happens (`ast::Print` checks the holder first), and
`operator->` on it would be invalid, hence `ub`. -/
def printValueF (fns : Fns) (v : Value) (st : St) : Res Unit × St :=
  match v with
  | .vnone => (.ub, st)
  | .number n => (.ok (), appendOut st (toString n))
  | .str s => (.ok (), appendOut st s)
  | .bool b => (.ok (), appendOut st (if b then "True" else "False"))
  | .classObj c =>
    if c.name = "" then (.fault "Not implemented", st)
    else (.ok (), appendOut st ("Class " ++ c.name))
  | .inst a =>
    match heapGet st a with
    | none => (.ub, st)
    | some io =>
      if HasMethod io.cls "__str__" 0 then
        bindR (fns.call a "__str__" [] st) fun r st1 =>
          if holderBool r then fns.printValue r st1 else (.ub, st1)
      else (.ok (), appendOut st (instAddrRepr a))

/-- One `Execute` step for every embedded node kind (statement.cpp). -/
def execF (fns : Fns) : Stmt → Closure → St → Res Value × Closure × St
  | .numericConst v, cl, st => (.ok (.number v), cl, st)
  | .stringConst v, cl, st => (.ok (.str v), cl, st)
  | .boolConst v, cl, st => (.ok (.bool v), cl, st)
  | .noneConst, cl, st => (.ok .vnone, cl, st)
  | .variableValue ids, cl, st => (varValueLoop st ids cl, cl, st)
  | .assignment var rv, cl, st =>
    -- `closure[var_] = std::move(rv_->Execute(closure, context))`
    bindE (fns.exec rv cl st) fun v cl1 st1 => (.ok v, upsert cl1 var v, st1)
  | .fieldAssignment object field rv, cl, st =>
    -- C++17 sequences the right operand of `=` before the left one:
    -- `rv_->Execute` runs first, then `object_.Execute(...).TryAs<...>()`
    -- (a null dereference when the chain is not an instance).
    bindE (fns.exec rv cl st) fun v cl1 st1 =>
    bindE (fns.exec (.variableValue object) cl1 st1) fun ov cl2 st2 =>
      match tryAsInstance ov with
      | none => (.ub, cl2, st2)
      | some a =>
        match heapGet st2 a with
        | none => (.ub, cl2, st2)
        | some io =>
          let heap2 := st2.heap.set a { io with fields := upsert io.fields field v }
          (.ok v, cl2, { st2 with heap := heap2 })
  | .print args, cl, st => printLoopF fns.exec fns.printValue args true .vnone cl st
  | .methodCall object method args, cl, st =>
    -- the C++ evaluates the argument vector before `object_->Execute`
    bindE (execArgsF fns.exec args cl st) fun vs cl1 st1 =>
    bindE (fns.exec object cl1 st1) fun ov cl2 st2 =>
      match tryAsInstance ov with
      | none => (.ub, cl2, st2)  -- `TryAs<ClassInstance>()->Call` on nullptr
      | some a =>
        match fns.call a method vs st2 with
        | (r, st3) => (r, cl2, st3)
  | .newInstance cls args, cl, st =>
    -- The C++ node owns one `ClassInstance` member and `Share`s it; we
    -- materialise that member on the heap at the start of `Execute`.
    let addr := st.heap.length
    let st0 := { st with heap := st.heap ++ [⟨cls, []⟩] }
    if HasMethod cls "__init__" args.length then
      bindE (execArgsF fns.exec args cl st0) fun vs cl1 st1 =>
        match fns.call addr "__init__" vs st1 with
        | (.ok _, st2) => (.ok (.inst addr), cl1, st2)
        | (.thrownHolder v, st2) => (.thrownHolder v, cl1, st2)
        | (.fault m, st2) => (.fault m, cl1, st2)
        | (.ub, st2) => (.ub, cl1, st2)
        | (.nofuel, st2) => (.nofuel, cl1, st2)
    else (.ok (.inst addr), cl, st0)
  | .sub lhs rhs, cl, st =>
    bindE (fns.exec lhs cl st) fun lv cl1 st1 =>
    bindE (fns.exec rhs cl1 st1) fun rv cl2 st2 =>
      match tryAsNumber lv, tryAsNumber rv with
      | some a, some b => (.ok (.number (a - b)), cl2, st2)
      | _, _ => (.fault "Execute(): SUB --runtime_error", cl2, st2)
  | .div lhs rhs, cl, st =>
    bindE (fns.exec lhs cl st) fun lv cl1 st1 =>
    bindE (fns.exec rhs cl1 st1) fun rv cl2 st2 =>
      match tryAsNumber lv, tryAsNumber rv with
      | some a, some b =>
        -- the inner source check `obj_rhs.TryAs<Number>() != nullptr` is a
        -- tautology here, so the "division by zero" throw below it is dead
        if (tryAsNumber rv).isSome then
          -- C++ `a / b` truncates toward zero; with b = 0 it is undefined
          if b = 0 then (.ub, cl2, st2)
          else (.ok (.number (Int.tdiv a b)), cl2, st2)
        else (.fault "Execute(): DIV --runtime_error --division by zero", cl2, st2)
      | _, _ => (.fault "Execute(): DIV --runtime_error", cl2, st2)
  | .orOp lhs rhs, cl, st =>
    -- `if (IsTrue(lhs_->Execute(..)) || IsTrue(rhs_->Execute(..)))`:
    -- the C++ `||` evaluates the right operand only when the left is falsy
    bindE (fns.exec lhs cl st) fun lv cl1 st1 =>
      if IsTrue lv then (.ok (.bool true), cl1, st1)
      else
        bindE (fns.exec rhs cl1 st1) fun rv cl2 st2 =>
          if IsTrue rv then (.ok (.bool true), cl2, st2)
          else (.ok (.bool false), cl2, st2)
  | .andOp lhs rhs, cl, st =>
    -- `if (IsTrue(lhs_->Execute(..)) && IsTrue(rhs_->Execute(..)))`
    bindE (fns.exec lhs cl st) fun lv cl1 st1 =>
      if IsTrue lv then
        bindE (fns.exec rhs cl1 st1) fun rv cl2 st2 =>
          if IsTrue rv then (.ok (.bool true), cl2, st2)
          else (.ok (.bool false), cl2, st2)
      else (.ok (.bool false), cl1, st1)
  | .notOp argument, cl, st =>
    bindE (fns.exec argument cl st) fun v cl1 st1 => (.ok (.bool (!IsTrue v)), cl1, st1)
  | .comparison cmp lhs rhs, cl, st =>
    bindE (fns.exec lhs cl st) fun lv cl1 st1 =>
    bindE (fns.exec rhs cl1 st1) fun rv cl2 st2 =>
      match applyCmpF fns cmp lv rv st2 with
      | (.ok b, st3) => (.ok (.bool b), cl2, st3)
      | (.thrownHolder v, st3) => (.thrownHolder v, cl2, st3)
      | (.fault m, st3) => (.fault m, cl2, st3)
      | (.ub, st3) => (.ub, cl2, st3)
      | (.nofuel, st3) => (.nofuel, cl2, st3)
  | .compound args, cl, st =>
    -- execute the children in order, discard their results, return `{}`
    bindE (execArgsF fns.exec args cl st) fun _ cl1 st1 => (.ok .vnone, cl1, st1)
  | .methodBody body, cl, st =>
    match fns.exec body cl st with
    | (.ok _, cl1, st1) => (.ok .vnone, cl1, st1)
    | (.thrownHolder v, cl1, st1) => (.ok v, cl1, st1)  -- `catch (ObjectHolder obj)`
    | (.fault m, cl1, st1) => (.fault m, cl1, st1)
    | (.ub, cl1, st1) => (.ub, cl1, st1)
    | (.nofuel, cl1, st1) => (.nofuel, cl1, st1)
  | .returnStmt statement, cl, st =>
    -- `throw statement_->Execute(closure, context)`
    bindE (fns.exec statement cl st) fun v cl1 st1 => (.thrownHolder v, cl1, st1)
  | .ifElse condition if_body else_body, cl, st =>
    bindE (fns.exec condition cl st) fun cv cl1 st1 =>
      if IsTrue cv then fns.exec if_body cl1 st1
      else
        match else_body with
        | some e => fns.exec e cl1 st1
        | none => (.ok .vnone, cl1, st1)

/-- Tie the knot: every recursive call in the C++ cluster descends one fuel
level, so the whole interpreter is structural recursion on the budget. -/
def step (prev : Fns) : Fns where
  exec := execF prev
  call := callF prev
  equal := equalF prev
  less := lessF prev
  notEqual := notEqualF prev
  greater := greaterF prev
  lessOrEqual := lessOrEqualF prev
  greaterOrEqual := greaterOrEqualF prev
  printValue := printValueF prev

def Interp : Nat → Fns
  | 0 => noFns
  | fuel + 1 => step (Interp fuel)

/-- `ast::...::Execute` at a given fuel. -/
def Execute (fuel : Nat) : Stmt → Closure → St → Res Value × Closure × St :=
  (Interp fuel).exec

/-- `runtime::ClassInstance::Call` at a given fuel (the instance is the heap
address of the receiver). -/
def Call (fuel : Nat) : Nat → String → List Value → St → Res Value × St :=
  (Interp fuel).call

/-- `runtime::Equal` at a given fuel. -/
def Equal (fuel : Nat) : Value → Value → St → Res Bool × St :=
  (Interp fuel).equal

/-- `runtime::Less` at a given fuel. -/
def Less (fuel : Nat) : Value → Value → St → Res Bool × St :=
  (Interp fuel).less

/-- `runtime::NotEqual` at a given fuel. -/
def NotEqual (fuel : Nat) : Value → Value → St → Res Bool × St :=
  (Interp fuel).notEqual

/-- `runtime::Greater` at a given fuel. -/
def Greater (fuel : Nat) : Value → Value → St → Res Bool × St :=
  (Interp fuel).greater

/-- `runtime::LessOrEqual` at a given fuel. -/
def LessOrEqual (fuel : Nat) : Value → Value → St → Res Bool × St :=
  (Interp fuel).lessOrEqual

/-- `runtime::GreaterOrEqual` at a given fuel. -/
def GreaterOrEqual (fuel : Nat) : Value → Value → St → Res Bool × St :=
  (Interp fuel).greaterOrEqual

theorem Execute_succ (fuel : Nat) (s : Stmt) (cl : Closure) (st : St) :
    Execute (fuel + 1) s cl st = execF (Interp fuel) s cl st := rfl

theorem interp_exec (fuel : Nat) : (Interp fuel).exec = Execute fuel := rfl

theorem interp_call (fuel : Nat) : (Interp fuel).call = Call fuel := rfl

theorem interp_equal (fuel : Nat) : (Interp fuel).equal = Equal fuel := rfl

theorem interp_less (fuel : Nat) : (Interp fuel).less = Less fuel := rfl

theorem interp_greater (fuel : Nat) : (Interp fuel).greater = Greater fuel := rfl

theorem Greater_succ (fuel : Nat) (lhs rhs : Value) (st : St) :
    Greater (fuel + 1) lhs rhs st = greaterF (Interp fuel) lhs rhs st := rfl

theorem Equal_succ (fuel : Nat) (lhs rhs : Value) (st : St) :
    Equal (fuel + 1) lhs rhs st = equalF (Interp fuel) lhs rhs st := rfl

/-- The empty evaluation state. -/
def emptySt : St := ⟨[], ""⟩

/-! ## Lexer (`parse` namespace, lexer.h / lexer.cpp) -/

/-- `parse::Token` (the `std::variant` from lexer.h). -/
inductive Token where
  | number (value : Int)
  | id (value : String)
  | char (value : Char)
  | string (value : String)
  | classTok
  | returnTok
  | ifTok
  | elseTok
  | defTok
  | newline
  | printTok
  | indent
  | dedent
  | andTok
  | orTok
  | notTok
  | eq
  | notEq
  | lessOrEq
  | greaterOrEq
  | noneTok
  | trueTok
  | falseTok
  | eof
deriving DecidableEq, Repr

/-- The variant index of a token (`Token::Is<T>` compares against this). -/
inductive TokKind where
  | number | id | char | string | classK | returnK | ifK | elseK | defK
  | newline | printK | indentK | dedentK | andK | orK | notK
  | eqK | notEqK | lessOrEqK | greaterOrEqK | noneK | trueK | falseK | eofK
deriving DecidableEq

def tokKind : Token → TokKind
  | .number _ => .number
  | .id _ => .id
  | .char _ => .char
  | .string _ => .string
  | .classTok => .classK
  | .returnTok => .returnK
  | .ifTok => .ifK
  | .elseTok => .elseK
  | .defTok => .defK
  | .newline => .newline
  | .printTok => .printK
  | .indent => .indentK
  | .dedent => .dedentK
  | .andTok => .andK
  | .orTok => .orK
  | .notTok => .notK
  | .eq => .eqK
  | .notEq => .notEqK
  | .lessOrEq => .lessOrEqK
  | .greaterOrEq => .greaterOrEqK
  | .noneTok => .noneK
  | .trueTok => .trueK
  | .falseTok => .falseK
  | .eof => .eofK

def isNewlineTok (t : Token) : Bool := tokKind t = TokKind.newline

def isEofTok (t : Token) : Bool := tokKind t = TokKind.eofK

def isDedentTok (t : Token) : Bool := tokKind t = TokKind.dedentK

/-- The `std::istream` the lexer reads from: consumed characters (most
recent first, for `unget`), remaining characters, and the fail bit.  Once a
`get` fails the stream stays failed (nothing in the lexer clears the
flags), and `unget` on a failed stream does nothing. -/
structure Istream where
  back : List Char
  fwd : List Char
  failed : Bool

/-- `istream::get(char&)`. -/
def Istream.get (s : Istream) : Option Char × Istream :=
  if s.failed then (none, s)
  else
    match s.fwd with
    | [] => (none, { s with failed := true })
    | c :: rest => (some c, { s with back := c :: s.back, fwd := rest })

/-- `istream::unget()`; the empty-`back` case cannot arise in the lexer
(`unget` always follows a successful `get`). -/
def Istream.unget (s : Istream) : Istream :=
  if s.failed then s
  else
    match s.back with
    | [] => s
    | c :: b => { s with back := b, fwd := c :: s.fwd }

def Istream.ungetN : Istream → Nat → Istream
  | s, 0 => s
  | s, n + 1 => Istream.ungetN s.unget n

/-- `std::getline(input_, line_)`: consume up to and including the next LF
(the read line itself is discarded by the lexer); reading zero characters
at end of input sets the fail bit. -/
def Istream.getline (s : Istream) : Istream :=
  if s.failed then s
  else
    match s.fwd with
    | [] => { s with failed := true }
    | _ =>
      let upto := s.fwd.takeWhile (fun c => c ≠ '\n')
      let rest := s.fwd.drop upto.length
      match rest with
      | [] => { s with back := upto.reverse ++ s.back, fwd := [] }
      | nl :: r => { s with back := nl :: (upto.reverse ++ s.back), fwd := r }

/-- `parse::Lexer`'s mutable state: the last read character `c_`, the input
stream, the token vector `doc_` (the current token is its last element),
`last_indent_` and `dedent_chain_`. -/
structure LexState where
  c : Char
  stream : Istream
  doc : List Token
  lastIndent : Nat
  dedentChain : Bool

/-- A lexer-side failure: `LexerError`, or the `std::out_of_range` that
`doc_.at(doc_.size() - 1)` raises on an empty token vector. -/
inductive LexFail where
  | lexerError (msg : String)
  | oob
deriving DecidableEq

/-- `Lexer::CurrentToken`: `doc_.at(doc_.size() - 1)`. -/
def currentToken (st : LexState) : Except LexFail Token :=
  match st.doc.getLast? with
  | some t => .ok t
  | none => .error .oob

def emit (st : LexState) (t : Token) : LexState :=
  { st with doc := st.doc ++ [t] }

/-- `Lexer::RemoveSpaces` (fuelled; every iteration consumes a character,
so `fwd.length + 1` fuel always suffices). -/
def removeSpacesAux : Nat → LexState → LexState
  | 0, st => st
  | n + 1, st =>
    match st.stream.get with
    | (none, s1) => { st with stream := s1 }
    | (some ch, s1) =>
      let st1 := { st with c := ch, stream := s1 }
      if ch ≠ ' ' then { st1 with stream := st1.stream.unget }
      else removeSpacesAux n st1

def removeSpaces (st : LexState) : LexState :=
  removeSpacesAux (st.stream.fwd.length + 1) st

/-- `Lexer::RemoveEmptyLines` (fuelled like `removeSpaces`).  Note that the
source does not reset `space_count` after a comment line. -/
def removeEmptyLinesAux : Nat → Nat → LexState → LexState
  | 0, _, st => st
  | n + 1, spaceCount, st =>
    match st.stream.get with
    | (none, s1) => { st with stream := s1 }
    | (some ch, s1) =>
      let st1 := { st with c := ch, stream := s1 }
      if ch = '#' then removeEmptyLinesAux n spaceCount { st1 with stream := st1.stream.getline }
      else if ch ≠ ' ' ∧ ch ≠ '\n' then { st1 with stream := st1.stream.ungetN (spaceCount + 1) }
      else if ch = '\n' then removeEmptyLinesAux n 0 st1
      else removeEmptyLinesAux n (spaceCount + 1) st1

def removeEmptyLines (st : LexState) : LexState :=
  removeEmptyLinesAux (st.stream.fwd.length + 1) 0 st

/-- The punctuation set `lang_chars`. -/
def langChars : List Char := ['.', ',', '(', ')', '*', '/', '+', '-', ':', ';']

/-- The terminator set `marks_chars` used by `GetNumberLexeme`. -/
def marksChars : List Char := [',', '(', ')', '*', '/', '+', '-', ':', ';']

/-- `Lexer::GetEqLexeme`: called with `c_` one of `=`, `!`, `<`, `>`; a
following `=` makes a compound token, anything else is ungot and `c_`
becomes a `Char` token.  (When the `get` of the second character fails the
C++ reads an indeterminate `next_c`; it cannot equal `'='` in any defined
run, so we take the single-character path.) -/
def getEqLexeme (st : LexState) : Except LexFail (Token × LexState) :=
  match st.stream.get with
  | (some nc, s1) =>
    if nc = '=' then
      let pair := String.mk [st.c, nc]
      let st1 := { st with stream := s1 }
      let st2 :=
        if pair = "==" then emit st1 .eq
        else if pair = "!=" then emit st1 .notEq
        else if pair = "<=" then emit st1 .lessOrEq
        else if pair = ">=" then emit st1 .greaterOrEq
        else st1
      let st3 := removeSpaces st2
      currentToken st3 |>.map (fun t => (t, st3))
    else
      let st1 := removeSpaces (emit { st with stream := s1.unget } (.char st.c))
      .ok (.char st.c, st1)
  | (none, s1) =>
    let st1 := removeSpaces (emit { st with stream := s1.unget } (.char st.c))
    .ok (.char st.c, st1)

/-- `Lexer::GetCharLexeme`. -/
def getCharLexeme (st : LexState) : Token × LexState :=
  let st1 := removeSpaces (emit st (.char st.c))
  (.char st.c, st1)

/-- The loop of `Lexer::GetStringLexeme`.  A character other than the
delimiter is accumulated (after the backslash escapes `\n` and `\t`; any
other escaped character is taken verbatim); the `c_ == '\n'` arm is the
`else if` of `c_ != end_marker`, so it is dead — a raw LF is accumulated by
the first arm; end of input before the delimiter throws. -/
def getStringAux : Nat → Char → List Char → LexState → Except LexFail (Token × LexState)
  | 0, _, _, _ => .error (.lexerError "GetStringLexeme(): Wrong string format")
  | n + 1, marker, acc, st =>
    match st.stream.get with
    | (none, _) => .error (.lexerError "GetStringLexeme(): Wrong string format")
    | (some ch, s1) =>
      let st1 := { st with c := ch, stream := s1 }
      if ch ≠ marker then
        if ch = '\\' then
          match st1.stream.get with
          | (some e, s2) =>
            let e2 := if e = 'n' then '\n' else if e = 't' then '\t' else e
            getStringAux n marker (acc ++ [e2]) { st1 with c := e2, stream := s2 }
          | (none, s2) =>
            -- failed `get` leaves `c_` at the backslash, which is pushed;
            -- the next iteration's `get` fails and throws
            getStringAux n marker (acc ++ ['\\']) { st1 with stream := s2 }
        else getStringAux n marker (acc ++ [ch]) st1
      else if ch = '\n' then .error (.lexerError "GetStringLexeme(): Wrong string format")
      else
        let t := Token.string (String.mk acc)
        let st2 := removeSpaces (emit st1 t)
        .ok (t, st2)

def getStringLexeme (st : LexState) : Except LexFail (Token × LexState) :=
  getStringAux (st.stream.fwd.length + 1) st.c [] st

def stoiDigits (cs : List Char) : Int :=
  cs.foldl (fun a c => a * 10 + ((c.toNat : Int) - 48)) 0

/-- The epilogue of `Lexer::GetNumberLexeme`: `input_.unget()` (a no-op
when the loop stopped on a failed `get`), emit the decoded number, then
`RemoveSpaces`. -/
def finishNumber (acc : List Char) (st : LexState) : Except LexFail (Token × LexState) :=
  let st1 := { st with stream := st.stream.unget }
  let t := Token.number (stoiDigits acc)
  let st2 := removeSpaces (emit st1 t)
  .ok (t, st2)

/-- The loop of `Lexer::GetNumberLexeme`: accumulate digits until a space,
`#`, LF or `marks_chars` terminator; a different character throws. -/
def getNumberAux : Nat → List Char → LexState → Except LexFail (Token × LexState)
  | 0, acc, st => finishNumber acc st
  | n + 1, acc, st =>
    match st.stream.get with
    | (none, s1) => finishNumber acc { st with stream := s1 }
    | (some ch, s1) =>
      let st1 := { st with c := ch, stream := s1 }
      if ch ≠ ' ' ∧ ch ≠ '#' ∧ ch ≠ '\n' ∧ ch ∉ marksChars then
        if ch.isDigit then getNumberAux n (acc ++ [ch]) st1
        else .error (.lexerError "GetNumberLexeme(): Wrong number format")
      else finishNumber acc st1

def getNumberLexeme (st : LexState) : Except LexFail (Token × LexState) :=
  getNumberAux (st.stream.fwd.length + 1) [st.c] st

/-- The keyword table of `Lexer::GetIdOrKeyLexeme`. -/
def keywordToken (s : String) : Token :=
  if s = "class" then .classTok
  else if s = "return" then .returnTok
  else if s = "if" then .ifTok
  else if s = "else" then .elseTok
  else if s = "def" then .defTok
  else if s = "print" then .printTok
  else if s = "and" then .andTok
  else if s = "or" then .orTok
  else if s = "not" then .notTok
  else if s = "None" then .noneTok
  else if s = "True" then .trueTok
  else if s = "False" then .falseTok
  else .id s

/-- The loop of `Lexer::GetIdOrKeyLexeme`: accumulate until a space, `#`,
LF or `lang_chars` character (ungot), or end of input (not ungot). -/
def getIdAux : Nat → List Char → LexState → List Char × LexState
  | 0, acc, st => (acc, st)
  | n + 1, acc, st =>
    match st.stream.get with
    | (none, s1) => (acc, { st with stream := s1 })
    | (some ch, s1) =>
      let st1 := { st with c := ch, stream := s1 }
      if ch ≠ ' ' ∧ ch ≠ '#' ∧ ch ≠ '\n' ∧ ch ∉ langChars then getIdAux n (acc ++ [ch]) st1
      else (acc, { st1 with stream := st1.stream.unget })

def getIdOrKeyLexeme (st : LexState) : Token × LexState :=
  let (acc, st1) := getIdAux (st.stream.fwd.length + 1) [st.c] st
  let t := keywordToken (String.mk acc)
  let st2 := removeSpaces (emit st1 t)
  (t, st2)

/-- The loop of `Lexer::IsIndentLexeme`, entered with one space already
consumed (`indent_count` starts at 1).  On each further space the counter
is bumped and `indent_count / 2 - 1 == last_indent_` emits one `Indent`
(the counter is at least 2 there, so the subtraction is exact); on a
non-space character the truncated half decides between no token, a single
`Dedent` with one `unget`, or a `Dedent` with three `unget`s.  End of input
yields `false` with no token.  No path signals an error. -/
def isIndentAux : Nat → Nat → LexState → Bool × LexState
  | 0, _, st => (false, st)
  | n + 1, count, st =>
    match st.stream.get with
    | (none, s1) => (false, { st with stream := s1 })
    | (some ch, s1) =>
      let st1 := { st with c := ch, stream := s1 }
      if ch = ' ' then
        let count1 := count + 1
        if count1 / 2 - 1 = st1.lastIndent then
          (true, emit { st1 with lastIndent := st1.lastIndent + 1 } .indent)
        else isIndentAux n count1 st1
      else
        if count / 2 = st1.lastIndent then (false, st1)
        else
          let stU :=
            if count / 2 + 1 ≠ st1.lastIndent then { st1 with stream := st1.stream.ungetN 2 }
            else st1
          let st2 := { stU with stream := stU.stream.unget }
          (true, emit { st2 with lastIndent := st2.lastIndent - 1 } .dedent)

def isIndentLexeme (st : LexState) : Bool × LexState :=
  isIndentAux (st.stream.fwd.length + 1) 1 st

/-- The dispatch chain of `Lexer::ParseNextToken` below the `#`/LF
handling. -/
def parseRest (st : LexState) : Except LexFail (Token × LexState) :=
  if st.c = '=' ∨ st.c = '!' ∨ st.c = '<' ∨ st.c = '>' then getEqLexeme st
  else if st.c ∈ langChars then .ok (getCharLexeme st)
  else if st.c = '\'' ∨ st.c = '"' then getStringLexeme st
  else if st.c.isDigit then getNumberLexeme st
  else if st.c.toNat = 95 ∨ (64 < st.c.toNat ∧ st.c.toNat < 91) ∨
      (96 < st.c.toNat ∧ st.c.toNat < 123) then .ok (getIdOrKeyLexeme st)
  else if st.c = ' ' then .error (.lexerError "ParseNextToken(): FLAG error-- ")
  else .error (.lexerError ("ParseNextToken(): Unknown error-- " ++ String.mk [st.c]))

/-- `Lexer::ParseNextToken`.  A `#` removes the rest of the line and emits
a `Newline` unless the current token already is one (falling through to the
dispatch chain otherwise — unreachable in practice); an LF emits a
`Newline`. -/
def parseNextToken (st : LexState) : Except LexFail (Token × LexState) :=
  if st.c = '#' then
    let st1 := { st with stream := st.stream.getline }
    match currentToken st1 with
    | .error e => .error e
    | .ok cur =>
      if !isNewlineTok cur then .ok (.newline, emit st1 .newline)
      else parseRest st1
  else if st.c = '\n' then .ok (.newline, emit st .newline)
  else parseRest st

/-- `Lexer::NextToken` (lexer.cpp).  After a `Newline` (or at the very
start) blank and comment lines are skipped; a space after a `Newline`
triggers the indentation scan; a non-space with pending indentation after a
`Newline` (or while a dedent chain is running) emits one `Dedent` and
ungets the character; end of input first unwinds `last_indent_`, then emits
a final `Newline` when the current token is not a `Newline`, `Eof` or
`Dedent`, then exactly one `Eof`, which repeats on further calls. -/
def NextToken (st : LexState) : Except LexFail (Token × LexState) :=
  let st1 :=
    if st.doc.isEmpty || (st.doc.getLast?.map isNewlineTok).getD false then
      removeEmptyLines st
    else st
  match st1.stream.get with
  | (some ch, s1) =>
    let st2 := { st1 with c := ch, stream := s1 }
    if ch = ' ' then
      -- line 143 evaluates `CurrentToken()`: out_of_range on an empty `doc_`
      match st2.doc.getLast? with
      | none => .error .oob
      | some cur =>
        if isNewlineTok cur then
          let (r, st3) := isIndentLexeme st2
          if r then currentToken st3 |>.map (fun t => (t, st3))
          else parseNextToken { st3 with dedentChain := false }
        else parseNextToken { st2 with dedentChain := false }
    else
      if st2.lastIndent > 0 then
        match st2.doc.getLast? with
        | none => .error .oob
        | some cur =>
          if isNewlineTok cur || st2.dedentChain then
            let st3 := { st2 with
              dedentChain := true
              stream := st2.stream.unget
              lastIndent := st2.lastIndent - 1 }
            .ok (.dedent, emit st3 .dedent)
          else parseNextToken { st2 with dedentChain := false }
      else parseNextToken { st2 with dedentChain := false }
  | (none, s1) =>
    let st2 := { st1 with stream := s1 }
    if st2.lastIndent > 0 then
      .ok (.dedent, emit { st2 with lastIndent := st2.lastIndent - 1 } .dedent)
    else
      match st2.doc.getLast? with
      | some cur =>
        if ¬isNewlineTok cur ∧ ¬isEofTok cur ∧ ¬isDedentTok cur then
          .ok (.newline, emit st2 .newline)
        else
          let st3 := if ¬isEofTok cur then emit st2 .eof else st2
          .ok (.eof, st3)
      | none => .ok (.eof, emit st2 .eof)

/-- A freshly constructed lexer state over the given input (`char c_{}` is
zero-initialised; the constructor then calls `NextToken` — see `runLexer`,
whose first iteration is that call). -/
def initLexState (input : String) : LexState :=
  { c := Char.ofNat 0, stream := { back := [], fwd := input.data, failed := false },
    doc := [], lastIndent := 0, dedentChain := false }

/-- Drive `NextToken` until it yields `Eof` and return the accumulated
token vector `doc_`. -/
def runLexer : Nat → LexState → Except LexFail (List Token)
  | 0, st => .ok st.doc
  | n + 1, st =>
    match NextToken st with
    | .error e => .error e
    | .ok (t, st1) => if isEofTok t then .ok st1.doc else runLexer n st1

/-- The full token stream the lexer produces for an input (or the failure
it signals). -/
def tokenize (input : String) : Except LexFail (List Token) :=
  runLexer (2 * input.length + 8) (initLexState input)

/-! ### Typed expectations (`Lexer::Expect` / `Lexer::ExpectNext`, lexer.h)

The C++ functions are templates over the token alternative `T`; we pass the
variant index `TokKind` instead.  The valued overloads compare the
`.value` payload, so the C++ instantiates them only at the four payload
variants (`Number`, `Id`, `Char`, `String`); `TokVal` covers those
payloads. -/

inductive TokVal where
  | int (v : Int)
  | str (v : String)
  | chr (v : Char)
deriving DecidableEq

def tokValue : Token → Option TokVal
  | .number v => some (.int v)
  | .id v => some (.str v)
  | .string v => some (.str v)
  | .char v => some (.chr v)
  | _ => none

/-- `Lexer::Expect<T>()`: the current token must be of kind `T`, otherwise
`LexerError`. -/
def Expect (k : TokKind) (st : LexState) : Except LexFail Token :=
  match currentToken st with
  | .error e => .error e
  | .ok t =>
    if tokKind t = k then .ok t
    else .error (.lexerError "Expect(): Wrong current token type")

/-- `Lexer::Expect<T>(value)`: when the current token is of kind `T` a
payload mismatch throws; the source has no `else` branch, so a kind
mismatch returns silently. -/
def ExpectValued (k : TokKind) (v : TokVal) (st : LexState) : Except LexFail Unit :=
  match currentToken st with
  | .error e => .error e
  | .ok t =>
    if tokKind t = k then
      if tokValue t ≠ some v then
        .error (.lexerError "Expect(): Wrong current token type or value")
      else .ok ()
    else .ok ()

/-- `Lexer::ExpectNext<T>()`: advance, then the new token must be of kind
`T`. -/
def ExpectNext (k : TokKind) (st : LexState) : Except LexFail (Token × LexState) :=
  match NextToken st with
  | .error e => .error e
  | .ok (t, st1) =>
    if tokKind t = k then .ok (t, st1)
    else .error (.lexerError "ExpectNext(): Wrong next token type")

/-- `Lexer::ExpectNext<T>(value)`: advance, then like the valued `Expect`
(again no `else` branch on a kind mismatch). -/
def ExpectNextValued (k : TokKind) (v : TokVal) (st : LexState) :
    Except LexFail LexState :=
  match NextToken st with
  | .error e => .error e
  | .ok (t, st1) =>
    if tokKind t = k then
      if tokValue t ≠ some v then
        .error (.lexerError "ExpectNext(): Wrong next token type or value")
      else .ok st1
    else .ok st1

/-- Modelled from the spec (the wording of claim C4): at end of input the
lexer is claimed to emit a `Newline` when the last emitted non-indentation
token is not one, then one `Dedent` per remaining indent level, then one
`Eof`.  Stated as a definition only so that it can be compared with what
the source actually emits. -/
def claimedEofEmission (lastNonIndentTok : Token) (level : Nat) : List Token :=
  (if isNewlineTok lastNonIndentTok then [] else [Token.newline]) ++
    List.replicate level Token.dedent ++ [Token.eof]

/-! ## Lemmas about exhausted input streams -/

theorem Istream.get_failed (s : Istream) (h : s.failed = true) : s.get = (none, s) := by
  simp [Istream.get, h]

theorem Istream.get_exhausted (s : Istream) (hex : s.failed = true ∨ s.fwd = []) :
    s.get = (none, { s with failed := true }) := by
  obtain ⟨b, f, fl⟩ := s
  rcases hex with h | h
  · simp only at h
    subst h
    simp [Istream.get]
  · simp only at h
    subst h
    cases fl <;> simp [Istream.get]

theorem removeEmptyLines_exhausted (st : LexState)
    (hex : st.stream.failed = true ∨ st.stream.fwd = []) :
    removeEmptyLines st = { st with stream := { st.stream with failed := true } } := by
  unfold removeEmptyLines
  rw [show st.stream.fwd.length + 1 = st.stream.fwd.length + 1 from rfl]
  simp [removeEmptyLinesAux, Istream.get_exhausted st.stream hex]

/-- The end-of-input behaviour of `Lexer::NextToken`, in one place: all the
claim-facing conjuncts of C4 are read off this case analysis. -/
theorem NextToken_exhausted (st : LexState)
    (hex : st.stream.failed = true ∨ st.stream.fwd = []) :
    NextToken st =
      (let st2 : LexState := { st with stream := { st.stream with failed := true } }
       if st.lastIndent > 0 then
        .ok (.dedent, emit { st2 with lastIndent := st.lastIndent - 1 } .dedent)
       else
        match st.doc.getLast? with
        | some cur =>
          if ¬isNewlineTok cur ∧ ¬isEofTok cur ∧ ¬isDedentTok cur then
            .ok (.newline, emit st2 .newline)
          else .ok (.eof, if ¬isEofTok cur then emit st2 .eof else st2)
        | none => .ok (.eof, emit st2 .eof)) := by
  obtain ⟨c, stm, doc, li, dc⟩ := st
  show NextToken ⟨c, stm, doc, li, dc⟩ = _
  unfold NextToken
  by_cases hcond : (doc.isEmpty || (doc.getLast?.map isNewlineTok).getD false) = true
  · have h1 : removeEmptyLines ⟨c, stm, doc, li, dc⟩
        = ⟨c, { stm with failed := true }, doc, li, dc⟩ :=
      removeEmptyLines_exhausted ⟨c, stm, doc, li, dc⟩ hex
    have h2 : Istream.get { stm with failed := true } = (none, { stm with failed := true }) :=
      Istream.get_failed _ rfl
    have h3 : ({ stm with failed := true } : Istream)
        = { { stm with failed := true } with failed := true } := rfl
    simp only [hcond, if_true, h1, h2, ← h3]
  · have h2 : stm.get = (none, { stm with failed := true }) := Istream.get_exhausted stm hex
    simp only [Bool.not_eq_true] at hcond
    simp only [hcond, Bool.false_eq_true, if_false, h2]

/-! ## Claims -/

/-- C1, counterexample: with a truthy left operand, `Or::Execute` never
executes the right operand — here the right operand is an assignment whose
binding does not appear in the final closure, although executing that
assignment alone does bind it.  This contradicts the claim that the right
operand is executed regardless of the left operand's truth value. -/
theorem c1_counterexample :
    Execute 2 (.orOp (.boolConst true) (.assignment "x" (.numericConst 1))) [] emptySt
      = (.ok (.bool true), [], emptySt) ∧
    Execute 2 (.assignment "x" (.numericConst 1)) [] emptySt
      = (.ok (.number 1), [("x", .number 1)], emptySt) ∧
    ([("x", Value.number 1)] : Closure) ≠ [] :=
  ⟨rfl, rfl, by simp⟩

/-- C1 (amended): `And::Execute` and `Or::Execute` short-circuit, as the
C++ `&&`/`||` in their sources do.  `Or` returns `Bool(true)` without
touching the right operand when `is_true` of the left result holds, and
evaluates the right operand (wrapping `is_true` of its result) otherwise;
`And` is dual.  Either way the result is a `Bool` holder. -/
theorem c1_and_or_short_circuit (fuel : Nat) (lhs rhs : Stmt) (cl cl1 : Closure)
    (st st1 : St) (v : Value)
    (h : Execute fuel lhs cl st = (.ok v, cl1, st1)) :
    (IsTrue v = true →
      Execute (fuel + 1) (.orOp lhs rhs) cl st = (.ok (.bool true), cl1, st1) ∧
      (∀ w cl2 st2, Execute fuel rhs cl1 st1 = (.ok w, cl2, st2) →
        Execute (fuel + 1) (.andOp lhs rhs) cl st = (.ok (.bool (IsTrue w)), cl2, st2))) ∧
    (IsTrue v = false →
      Execute (fuel + 1) (.andOp lhs rhs) cl st = (.ok (.bool false), cl1, st1) ∧
      (∀ w cl2 st2, Execute fuel rhs cl1 st1 = (.ok w, cl2, st2) →
        Execute (fuel + 1) (.orOp lhs rhs) cl st = (.ok (.bool (IsTrue w)), cl2, st2))) := by
  constructor
  · intro htrue
    constructor
    · simp [Execute_succ, execF, interp_exec, h, bindE, htrue]
    · intro w cl2 st2 hr
      simp only [Execute_succ, execF, interp_exec, h, bindE, htrue, hr, if_true]
      cases hw : IsTrue w <;> simp [hw]
  · intro hfalse
    constructor
    · simp [Execute_succ, execF, interp_exec, h, bindE, hfalse]
    · intro w cl2 st2 hr
      simp only [Execute_succ, execF, interp_exec, h, bindE, hfalse, hr,
        Bool.false_eq_true, if_false]
      cases hw : IsTrue w <;> simp [hw]

/-- C1 witness: a falsy left operand makes `Or` evaluate the right operand;
obtained by applying the amended theorem at `False or 5`. -/
theorem c1_witness :
    Execute 2 (.orOp (.boolConst false) (.numericConst 5)) [] emptySt
      = (.ok (.bool true), [], emptySt) :=
  ((c1_and_or_short_circuit 1 (.boolConst false) (.numericConst 5) [] [] emptySt emptySt
      (.bool false) rfl).2 rfl).2 (.number 5) [] emptySt rfl

/-- C2: evaluating `1 / 0` reaches the hardware division with a zero
divisor — undefined behaviour, not the `runtime_error` the claim requires,
because the "division by zero" branch sits behind a tautological
`TryAs<Number>` re-check of the right operand.  Nonzero divisors take the
truncating quotient path. -/
theorem c2_div_zero_undefined :
    Execute 2 (.div (.numericConst 1) (.numericConst 0)) [] emptySt = (.ub, [], emptySt) ∧
    Execute 2 (.div (.numericConst 7) (.numericConst 2)) [] emptySt
      = (.ok (.number 3), [], emptySt) ∧
    Execute 2 (.div (.numericConst (-7)) (.numericConst 2)) [] emptySt
      = (.ok (.number (-3)), [], emptySt) :=
  ⟨rfl, rfl, rfl⟩

/-- C3: `Return::Execute` turns its statement's value into the out-of-band
`thrownHolder` signal; `MethodBody::Execute` alone converts that signal
into a normal result (and an ordinary completion into the empty holder),
while a `runtime_error` fault passes through `MethodBody` unchanged; a
`Compound` does not intercept the signal. -/
theorem c3_return_methodbody (fuel : Nat) (s body : Stmt) (rest : List Stmt)
    (cl cl1 : Closure) (st st1 : St) (v : Value) (m : String) :
    (Execute fuel s cl st = (.ok v, cl1, st1) →
      Execute (fuel + 1) (.returnStmt s) cl st = (.thrownHolder v, cl1, st1)) ∧
    (Execute fuel body cl st = (.thrownHolder v, cl1, st1) →
      Execute (fuel + 1) (.methodBody body) cl st = (.ok v, cl1, st1)) ∧
    (Execute fuel body cl st = (.ok v, cl1, st1) →
      Execute (fuel + 1) (.methodBody body) cl st = (.ok .vnone, cl1, st1)) ∧
    (Execute fuel body cl st = (.fault m, cl1, st1) →
      Execute (fuel + 1) (.methodBody body) cl st = (.fault m, cl1, st1)) ∧
    (Execute fuel s cl st = (.thrownHolder v, cl1, st1) →
      Execute (fuel + 1) (.compound (s :: rest)) cl st = (.thrownHolder v, cl1, st1)) := by
  refine ⟨?_, ?_, ?_, ?_, ?_⟩ <;> intro h <;>
    simp [Execute_succ, execF, interp_exec, h, bindE, execArgsF]

/-- C3 witness: a method body whose statement is `return 7` delivers the
holder `Number(7)`; obtained from the theorem's delivery conjunct. -/
theorem c3_witness :
    Execute 3 (.methodBody (.returnStmt (.numericConst 7))) [] emptySt
      = (.ok (.number 7), [], emptySt) :=
  (c3_return_methodbody 2 (.numericConst 7) (.returnStmt (.numericConst 7)) [] [] []
      emptySt emptySt (.number 7) "").2.1 rfl

/-- C5, counterexample: in `a.b` with `a` bound to `Number(1)` — not an
`Instance` — the evaluator raises no fault; it keeps looking in the same
table and returns the binding of `b`, contradicting the claim that a
non-Instance intermediate value faults. -/
theorem c5_counterexample :
    Execute 1 (.variableValue ["a", "b"]) [("a", .number 1), ("b", .number 2)] emptySt
      = (.ok (.number 2), [("a", .number 1), ("b", .number 2)], emptySt) ∧
    tryAsInstance (Value.number 1) = none :=
  ⟨rfl, rfl⟩

/-- C5 (amended): `VariableValue::Execute` looks the first name up in the
closure; each found `Instance` value redirects the lookup table to that
instance's fields, while a found non-`Instance` value leaves the table
unchanged (no fault); only a missing name raises the runtime fault; the
holder of the last name wins. -/
theorem c5_dotted_lookup (fuel : Nat) (st : St) (cl : Closure) (x y : String) (v : Value) :
    (∀ w, lookupC cl x = some v → tryAsInstance v = none → lookupC cl y = some w →
      Execute (fuel + 1) (.variableValue [x, y]) cl st = (.ok w, cl, st)) ∧
    (lookupC cl x = some v → tryAsInstance v = none → lookupC cl y = none →
      Execute (fuel + 1) (.variableValue [x, y]) cl st
        = (.fault "runtime_error VariableValue::Execute()", cl, st)) ∧
    (∀ a io w, lookupC cl x = some (.inst a) → heapGet st a = some io →
      lookupC io.fields y = some w →
      Execute (fuel + 1) (.variableValue [x, y]) cl st = (.ok w, cl, st)) ∧
    (∀ rest, lookupC cl x = none →
      Execute (fuel + 1) (.variableValue (x :: rest)) cl st
        = (.fault "runtime_error VariableValue::Execute()", cl, st)) := by
  refine ⟨?_, ?_, ?_, ?_⟩
  · intro w h1 h2 h3
    simp [Execute_succ, execF, varValueLoop, h1, h2, h3]
  · intro h1 h2 h3
    simp [Execute_succ, execF, varValueLoop, h1, h2, h3]
  · intro a io w h1 h2 h3
    simp [Execute_succ, execF, varValueLoop, h1, h2, h3, tryAsInstance]
  · intro rest h1
    cases rest <;> simp [Execute_succ, execF, varValueLoop, h1]

/-- C5 witness: `a.b` with `a` a number and `b` a string both in the
closure; the amended theorem's first conjunct yields the value of `b`. -/
theorem c5_witness :
    Execute 1 (.variableValue ["a", "b"]) [("a", .number 1), ("b", .str "s")] emptySt
      = (.ok (.str "s"), [("a", .number 1), ("b", .str "s")], emptySt) :=
  (c5_dotted_lookup 0 emptySt [("a", .number 1), ("b", .str "s")] "a" "b"
      (.number 1)).1 (.str "s") rfl rfl rfl

/-- C9: for an instance whose class has `__lt__/1` but no `__eq__/1`, a
true `Less` makes `Greater` return `false` without fault (the C++ `&&`
short-circuits before `Equal`), while a false `Less` sends `Greater` into
`Equal`, which has no applicable case for such an instance and throws. -/
theorem c9_greater_on_lt_only_instance (fuel : Nat) (a : Nat) (rhs : Value)
    (st st1 : St) (io : InstObj)
    (hheap : heapGet st1 a = some io)
    (_hlt : HasMethod io.cls "__lt__" 1 = true)
    (heq : HasMethod io.cls "__eq__" 1 = false) :
    (Less (fuel + 1) (.inst a) rhs st = (.ok true, st1) →
      Greater (fuel + 2) (.inst a) rhs st = (.ok false, st1)) ∧
    (Less (fuel + 1) (.inst a) rhs st = (.ok false, st1) →
      Greater (fuel + 2) (.inst a) rhs st
        = (.fault "Cannot compare objects for equality", st1)) := by
  constructor <;> intro h
  · simp [Greater_succ, greaterF, interp_less, interp_equal, h, bindR]
  · simp [Greater_succ, greaterF, interp_less, interp_equal, h, bindR, Equal_succ,
      equalF, tryAsNumber, tryAsString, tryAsBool, holderBool, tryAsInstance, hheap, heq]

/-- A class providing only `__lt__` (whose body returns `True`), and a
state holding one instance of it, for the C9 witness. -/
def c9LtClass : Class :=
  .mk "C" [.mk "__lt__" ["x"] (.methodBody (.returnStmt (.boolConst true)))] none

def c9St : St := ⟨[⟨c9LtClass, []⟩], ""⟩

/-- C9 witness: with the `__lt__`-only instance compared against
`Number(0)`, `Less` yields `true` and the theorem gives `Greater = false`
without fault. -/
theorem c9_witness :
    Greater 10 (.inst 0) (.number 0) c9St = (.ok false, c9St) :=
  (c9_greater_on_lt_only_instance 8 0 (.number 0) c9St c9St ⟨c9LtClass, []⟩
      rfl rfl rfl).1 rfl

/-- C10: when the bound class has no `__init__` of the argument count,
`NewInstance::Execute` returns the instance (materialised on the heap)
without evaluating a single argument expression: the closure and the
context's output stream are exactly as before, whatever the argument
list is. -/
theorem c10_new_instance_skips_args (fuel : Nat) (cls : Class) (args : List Stmt)
    (cl : Closure) (st : St)
    (h : HasMethod cls "__init__" args.length = false) :
    Execute (fuel + 1) (.newInstance cls args) cl st
      = (.ok (.inst st.heap.length), cl, { st with heap := st.heap ++ [⟨cls, []⟩] }) := by
  simp [Execute_succ, execF, h]

/-- A class with no methods at all, for the C10 witness. -/
def c10Class : Class := .mk "D" [] none

/-- C10 witness: the argument list contains an assignment and a print —
both with side effects — yet the closure stays empty and the output stays
empty; obtained from the theorem at that input. -/
theorem c10_witness :
    Execute 3 (.newInstance c10Class
        [.assignment "x" (.numericConst 1), .print [.stringConst "hi"]]) [] emptySt
      = (.ok (.inst 0), [], ⟨[⟨c10Class, []⟩], ""⟩) :=
  c10_new_instance_skips_args 2 c10Class
    [.assignment "x" (.numericConst 1), .print [.stringConst "hi"]] [] emptySt rfl

/-- C4, counterexample: lexing `"x\n  y"` ends with the indent level at 1
and `Id("y")` as the last non-indentation token, so the claim predicts the
closing emission `Newline, Dedent, Eof`; the lexer actually emits
`Dedent, Eof` — the `Dedent` comes first and the `Newline` is suppressed
because the then-current token is a `Dedent`. -/
theorem c4_counterexample :
    tokenize "x\n  y"
      = .ok [.id "x", .newline, .indent, .id "y", .dedent, .eof] ∧
    ([Token.id "x", .newline, .indent, .id "y", .dedent, .eof] : List Token)
      = [Token.id "x", .newline, .indent, .id "y"] ++ [Token.dedent, Token.eof] ∧
    claimedEofEmission (.id "y") 1 = [Token.newline, Token.dedent, Token.eof] ∧
    ([Token.dedent, Token.eof] : List Token)
      ≠ [Token.newline, Token.dedent, Token.eof] :=
  ⟨rfl, rfl, rfl, by decide⟩

/-- C4 (amended): once the input stream is exhausted, each `NextToken`
call emits, in this order: one `Dedent` per remaining indent level first;
then a `Newline` only if the now-current token is not a `Newline`, `Eof`
or `Dedent` (so no `Newline` once a `Dedent` was emitted); then exactly
one `Eof`; and every further advance past `Eof` yields `Eof` again without
growing the token vector. -/
theorem c4_eof_emission (st : LexState)
    (hex : st.stream.failed = true ∨ st.stream.fwd = []) :
    (st.lastIndent > 0 →
      NextToken st = .ok (.dedent,
        { st with stream := { st.stream with failed := true },
                  doc := st.doc ++ [.dedent], lastIndent := st.lastIndent - 1 })) ∧
    (∀ cur, st.lastIndent = 0 → st.doc.getLast? = some cur →
      isNewlineTok cur = false → isEofTok cur = false → isDedentTok cur = false →
      NextToken st = .ok (.newline,
        { st with stream := { st.stream with failed := true },
                  doc := st.doc ++ [.newline] })) ∧
    (∀ cur, st.lastIndent = 0 → st.doc.getLast? = some cur →
      (isNewlineTok cur = true ∨ isDedentTok cur = true) →
      NextToken st = .ok (.eof,
        { st with stream := { st.stream with failed := true },
                  doc := st.doc ++ [.eof] })) ∧
    (st.lastIndent = 0 → st.doc.getLast? = some .eof →
      NextToken st = .ok (.eof,
        { st with stream := { st.stream with failed := true } })) := by
  have hm := NextToken_exhausted st hex
  refine ⟨?_, ?_, ?_, ?_⟩
  · intro hli
    rw [hm]
    simp [hli, emit]
  · intro cur hli hcur h1 h2 h3
    rw [hm]
    simp [hli, hcur, h1, h2, h3, emit]
  · intro cur hli hcur hor
    rw [hm]
    rcases hor with h | h
    · have : isEofTok cur = false := by
        cases cur <;> simp_all [isNewlineTok, isEofTok, tokKind]
      simp [hli, hcur, h, this, emit]
    · have : isEofTok cur = false := by
        cases cur <;> simp_all [isDedentTok, isEofTok, tokKind]
      simp [hli, hcur, h, this, emit]
  · intro hli hcur
    rw [hm]
    simp [hli, hcur, emit, isEofTok, tokKind]

/-- C4 witness: a concrete exhausted state with one pending indent level
and `Id("y")` current; the theorem's first conjunct emits the `Dedent`. -/
theorem c4_witness :
    NextToken ⟨'y', ⟨['y'], [], true⟩, [.id "x", .newline, .indent, .id "y"], 1, false⟩
      = .ok (.dedent,
        ⟨'y', ⟨['y'], [], true⟩, [.id "x", .newline, .indent, .id "y", .dedent], 0, false⟩) :=
  (c4_eof_emission ⟨'y', ⟨['y'], [], true⟩, [.id "x", .newline, .indent, .id "y"], 1, false⟩
      (Or.inl rfl)).1 (by decide)

/-- A lexer state whose current token is `Number(42)`, with nothing left in
the stream, for C6. -/
def c6State : LexState :=
  { c := 'a', stream := { back := [], fwd := [], failed := false },
    doc := [.number 42], lastIndent := 0, dedentChain := false }

/-- A lexer state whose current token is `Number(1)` with a `7` pending in
the stream, for the `ExpectNext` half of C6. -/
def c6NextState : LexState :=
  { c := 'a', stream := { back := [], fwd := ['7'], failed := false },
    doc := [.number 1], lastIndent := 0, dedentChain := false }

/-- C6: the valued `Expect<T>(value)` returns silently when the current
token's kind is not `T` (here: current is `Number(42)`, expected kind
`String` with value `"x"` — no `LexerError`), because the template has no
`else` branch on the kind test; `ExpectNext<T>(value)` advances (here onto
`Number(7)`) and then silently accepts the kind mismatch the same way.
The unvalued `Expect<T>()` does raise, as the claim describes. -/
theorem c6_expect_silent_on_kind_mismatch :
    ExpectValued TokKind.string (TokVal.str "x") c6State = .ok () ∧
    ExpectNextValued TokKind.string (TokVal.str "x") c6NextState
      = .ok ⟨'7', ⟨['7'], [], true⟩, [.number 1, .number 7], 0, false⟩ ∧
    Expect TokKind.string c6State
      = .error (.lexerError "Expect(): Wrong current token type") :=
  ⟨rfl, rfl, rfl⟩

/-- C7: a string literal broken by a raw LF is not a lex error — the LF is
folded into the literal, because the `c_ == '\n'` test sits in the `else`
of `c_ != end_marker` and is dead; only end of input before the closing
delimiter raises the `LexerError`. -/
theorem c7_string_newline_not_error :
    tokenize "'a\nb'" = .ok [.string "a\nb", .newline, .eof] ∧
    tokenize "'ab" = .error (.lexerError "GetStringLexeme(): Wrong string format") :=
  ⟨rfl, rfl⟩

/-- C8, counterexample: `"x\n y"` has one (odd) leading space on its second
line, yet the lexer signals no `LexError`: the space is consumed silently
and `y` is lexed as if unindented. -/
theorem c8_counterexample :
    tokenize "x\n y" = .ok [.id "x", .newline, .id "y", .newline, .eof] ∧
    (∀ e, tokenize "x\n y" ≠ .error e) := by
  refine ⟨rfl, ?_⟩
  intro e h
  rw [show tokenize "x\n y"
      = .ok [.id "x", .newline, .id "y", .newline, .eof] from rfl] at h
  exact Except.noConfusion h

/-- C8 (amended): an odd leading-space count is not reported:
`IsIndentLexeme` signals no error on any path (its result type carries
none), and a single leading space at level 0 followed by a non-space is
consumed with no token emitted and the level unchanged — the count is
simply truncated by the integer halving. -/
theorem c8_single_space_ignored (st : LexState) (ch : Char) (rest : List Char)
    (hfwd : st.stream.fwd = ch :: rest) (hch : ch ≠ ' ')
    (hf : st.stream.failed = false) (hli : st.lastIndent = 0) :
    isIndentLexeme st = (false,
      { st with c := ch,
                stream := { st.stream with back := ch :: st.stream.back, fwd := rest } }) := by
  obtain ⟨c, ⟨b, f, fl⟩, doc, li, dc⟩ := st
  simp only at hfwd hf hli
  subst hfwd hf hli
  simp [isIndentLexeme, isIndentAux, Istream.get, hch]

/-- C8 witness: after `Newline` at level 0 the lexer sees one space then a
`y`; the indentation scan returns `false` with no token and no error. -/
theorem c8_witness :
    isIndentLexeme ⟨' ', ⟨[' '], ['y'], false⟩, [.id "x", .newline], 0, false⟩
      = (false, ⟨'y', ⟨['y', ' '], [], false⟩, [.id "x", .newline], 0, false⟩) :=
  c8_single_space_ignored ⟨' ', ⟨[' '], ['y'], false⟩, [.id "x", .newline], 0, false⟩
    'y' [] rfl (by decide) rfl rfl

end Mython
